import Mathlib

/-!
Verification of the register-abstraction core of the `n64-pac` crate.

The development shallowly embeds:
* the `proc_bitfield` field codec used by every `bitfield!` register type
  (`mask`, `getField`, `setField`);
* the `num_enum`-derived enumerated-field conversions (`FromPrimitive` with a
  `#[default]` catch-all, `IntoPrimitive`), one pair of functions per enum;
* the `RW` register cell's volatile `read`/`write`/`modify` operations, as
  explicit state passing with an event trace recording each load and store;
* the `Hardware` ownership arbiter (`HARDWARE_TAKEN`, `take`, `steal`);
* the MI `MODE` dual-view register (`ModeReg` union with read/write shapes);
* the CP0 64-bit privileged transport (`read_u64` / `write_u64` hi/lo split).

Machine integers are modelled as `Nat` with explicit truncation where the
source truncates.
-/

namespace N64Pac

/-- The all-ones mask of width `w`: the value `2^w - 1`, used by the
`proc_bitfield` codec to delimit a field of `w` bits. -/
def mask (w : Nat) : Nat := 2 ^ w - 1

/-- Field getter generated by the `proc_bitfield::bitfield!` macro for a field
declared `@ o..=o+w-1`: shift the raw register value right by the offset and
keep the low `w` bits, i.e. `(r >> o) & ((1 << w) - 1)`. -/
def getField (o w r : Nat) : Nat := (r >>> o) &&& mask w

/-- Field setter generated by the `proc_bitfield::bitfield!` macro for a field
declared `@ o..=o+w-1` inside a register of `width` bits:
`(r & !(maskw << o)) | ((v & maskw) << o)`.  The full-width complement
`!(maskw << o)` of the Rust storage type is written as the XOR with the
all-ones value of the register width.  The input `v` is truncated to `w` bits
before insertion. -/
def setField (width o w r v : Nat) : Nat :=
  (r &&& (mask width ^^^ (mask w <<< o))) ||| ((v &&& mask w) <<< o)

/-! ### Bit-level behaviour of the field codec -/

theorem getField_testBit (o w r i : Nat) :
    (getField o w r).testBit i = (r.testBit (o + i) && decide (i < w)) := by
  simp [getField, mask, Nat.testBit_land, Nat.testBit_shiftRight,
    Nat.testBit_two_pow_sub_one, Bool.and_comm]

theorem setField_testBit_in (width o w r v i : Nat)
    (h : o + w ≤ width) (h1 : o ≤ i) (h2 : i < o + w) :
    (setField width o w r v).testBit i = v.testBit (i - o) := by
  have hiw : i < width := lt_of_lt_of_le h2 h
  have hio : i - o < w := by omega
  simp [setField, mask, Nat.testBit_lor, Nat.testBit_land, Nat.testBit_xor,
    Nat.testBit_shiftLeft, Nat.testBit_two_pow_sub_one, hiw, hio, h1]

theorem setField_testBit_out (width o w r v i : Nat)
    (hiw : i < width) (hout : i < o ∨ o + w ≤ i) :
    (setField width o w r v).testBit i = r.testBit i := by
  have hfield : ¬ (o ≤ i ∧ i - o < w) := by omega
  rcases Nat.lt_or_ge i o with hlt | hge
  · simp [setField, mask, Nat.testBit_lor, Nat.testBit_land, Nat.testBit_xor,
      Nat.testBit_shiftLeft, Nat.testBit_two_pow_sub_one, hiw,
      Nat.not_le.mpr hlt]
  · have hw : ¬ i - o < w := by omega
    simp [setField, mask, Nat.testBit_lor, Nat.testBit_land, Nat.testBit_xor,
      Nat.testBit_shiftLeft, Nat.testBit_two_pow_sub_one, hiw, hge, hw]

theorem setField_testBit_high (width o w r v i : Nat)
    (h : o + w ≤ width) (hr : r < 2 ^ width) (hiw : width ≤ i) :
    (setField width o w r v).testBit i = false := by
  have hri : r.testBit i = false :=
    Nat.testBit_lt_two_pow
      (lt_of_lt_of_le hr (Nat.pow_le_pow_right (by omega) hiw))
  have hw : ¬ i - o < w := by omega
  have hiw2 : ¬ i < width := by omega
  rcases Nat.lt_or_ge i o with hlt | hge
  · simp [setField, mask, Nat.testBit_lor, Nat.testBit_land, Nat.testBit_xor,
      Nat.testBit_shiftLeft, Nat.testBit_two_pow_sub_one, hiw2, hri,
      Nat.not_le.mpr hlt]
  · simp [setField, mask, Nat.testBit_lor, Nat.testBit_land, Nat.testBit_xor,
      Nat.testBit_shiftLeft, Nat.testBit_two_pow_sub_one, hiw2, hri, hge, hw]

theorem land_mask_of_lt (x w : Nat) (h : x < 2 ^ w) : x &&& mask w = x := by
  apply Nat.eq_of_testBit_eq
  intro i
  rcases Nat.lt_or_ge i w with hi | hi
  · simp [mask, Nat.testBit_land, Nat.testBit_two_pow_sub_one, hi]
  · have hx : x.testBit i = false :=
      Nat.testBit_lt_two_pow
        (lt_of_lt_of_le h (Nat.pow_le_pow_right (by omega) hi))
    simp [mask, Nat.testBit_land, Nat.testBit_two_pow_sub_one, hx]

/-- Reading a field back out of a freshly set register value recovers the
written value truncated to the field width, whatever the previous register
contents were. -/
theorem getField_setField (width o w r x : Nat) (h : o + w ≤ width) :
    getField o w (setField width o w r x) = x &&& mask w := by
  apply Nat.eq_of_testBit_eq
  intro i
  rw [getField_testBit]
  rcases Nat.lt_or_ge i w with hi | hi
  · rw [setField_testBit_in width o w r x (o + i) h (by omega) (by omega)]
    simp [mask, Nat.testBit_land, Nat.testBit_two_pow_sub_one, hi]
  · have hw : ¬ i < w := by omega
    have hx : (x &&& mask w).testBit i = false := by
      simp [mask, Nat.testBit_land, Nat.testBit_two_pow_sub_one, hw]
    simp [hw, hx]

/-! ### Enumerated fields

Each enum below is copied from the source together with its
`num_enum`-derived conversions.  `fromU8`/`fromU16` embeds the derived
`FromPrimitive` impl: a match arm per declared discriminant and the
`#[default]` variant as catch-all.  `intoU8`/`intoU16` embeds the derived
`IntoPrimitive` impl: the declared discriminant of each variant (a variant
without an explicit value gets the previous discriminant plus one). -/

/-- `vi::ColorDepth` (field `depth: u8 [ColorDepth] @ 0..=1` of VI CTRL). -/
inductive ColorDepth
  | BPP32
  | BPP16
  | Reserved
  | Blank
deriving DecidableEq, Repr

def ColorDepth.intoU8 : ColorDepth → Nat
  | .BPP32 => 3
  | .BPP16 => 2
  | .Reserved => 1
  | .Blank => 0

def ColorDepth.fromU8 (p : Nat) : ColorDepth :=
  if p = 3 then .BPP32
  else if p = 2 then .BPP16
  else if p = 1 then .Reserved
  else .Blank

/-- `vi::AntiAliasMode` (field `aa_mode: u8 [AntiAliasMode] @ 8..=9` of VI CTRL). -/
inductive AntiAliasMode
  | Disabled
  | ResamplingOnly
  | EnabledAsNeeded
  | Enabled
deriving DecidableEq, Repr

def AntiAliasMode.intoU8 : AntiAliasMode → Nat
  | .Disabled => 3
  | .ResamplingOnly => 2
  | .EnabledAsNeeded => 1
  | .Enabled => 0

def AntiAliasMode.fromU8 (p : Nat) : AntiAliasMode :=
  if p = 3 then .Disabled
  else if p = 2 then .ResamplingOnly
  else if p = 1 then .EnabledAsNeeded
  else .Enabled

/-- `cp0::CacheAlgorithm` (fields `cache_algorithm: u8 [CacheAlgorithm] @ 3..=5`
of EntryLo and `k0: u8 [CacheAlgorithm] @ 0..=2` of Config). -/
inductive CacheAlgorithm
  | Uncached
  | Cached
deriving DecidableEq, Repr

def CacheAlgorithm.intoU8 : CacheAlgorithm → Nat
  | .Uncached => 2
  | .Cached => 3

def CacheAlgorithm.fromU8 (p : Nat) : CacheAlgorithm :=
  if p = 2 then .Uncached
  else if p = 3 then .Cached
  else .Cached

/-- `cp0::PageSize` (field `mask: u16 [PageSize] @ 13..=24` of PageMask).
`Undefined` carries no explicit discriminant, so Rust assigns it
`0xFFF + 1 = 0x1000`. -/
inductive PageSize
  | KB4
  | KB16
  | KB64
  | KB256
  | MB1
  | MB4
  | MB16
  | Undefined
deriving DecidableEq, Repr

def PageSize.intoU16 : PageSize → Nat
  | .KB4 => 0x000
  | .KB16 => 0x003
  | .KB64 => 0x00F
  | .KB256 => 0x03F
  | .MB1 => 0x0FF
  | .MB4 => 0x3FF
  | .MB16 => 0xFFF
  | .Undefined => 0x1000

def PageSize.fromU16 (p : Nat) : PageSize :=
  if p = 0x000 then .KB4
  else if p = 0x003 then .KB16
  else if p = 0x00F then .KB64
  else if p = 0x03F then .KB256
  else if p = 0x0FF then .MB1
  else if p = 0x3FF then .MB4
  else if p = 0xFFF then .MB16
  else if p = 0x1000 then .Undefined
  else .Undefined

/-- `cp0::VAddrRegion` (fields `region @ 62..=63` of EntryHi and
`region @ 31..=32` of XContext). -/
inductive VAddrRegion
  | User
  | Supervisor
  | Unknown
  | Kernel
deriving DecidableEq, Repr

def VAddrRegion.intoU8 : VAddrRegion → Nat
  | .User => 0
  | .Supervisor => 1
  | .Unknown => 2
  | .Kernel => 3

def VAddrRegion.fromU8 (p : Nat) : VAddrRegion :=
  if p = 0 then .User
  else if p = 1 then .Supervisor
  else if p = 2 then .Unknown
  else if p = 3 then .Kernel
  else .Unknown

/-- `cp0::ExceptionCode` (read-only field `exception_code @ 2..=6` of Cause).
`Reserved` carries no explicit discriminant, so Rust assigns it `23 + 1 = 24`. -/
inductive ExceptionCode
  | Interrupt
  | TlbModification
  | TlbMissOnLoad
  | TlbMissOnStore
  | AddressErrorOnLoad
  | AddressErrorOnStore
  | InstructionBusError
  | DataBusError
  | Syscall
  | Breakpoint
  | ReservedInstruction
  | CoprocessorUnusable
  | ArithmeticOverflow
  | Trap
  | FloatingPoint
  | Watch
  | Reserved
deriving DecidableEq, Repr

def ExceptionCode.intoU8 : ExceptionCode → Nat
  | .Interrupt => 0
  | .TlbModification => 1
  | .TlbMissOnLoad => 2
  | .TlbMissOnStore => 3
  | .AddressErrorOnLoad => 4
  | .AddressErrorOnStore => 5
  | .InstructionBusError => 6
  | .DataBusError => 7
  | .Syscall => 8
  | .Breakpoint => 9
  | .ReservedInstruction => 10
  | .CoprocessorUnusable => 11
  | .ArithmeticOverflow => 12
  | .Trap => 13
  | .FloatingPoint => 15
  | .Watch => 23
  | .Reserved => 24

def ExceptionCode.fromU8 (p : Nat) : ExceptionCode :=
  if p = 0 then .Interrupt
  else if p = 1 then .TlbModification
  else if p = 2 then .TlbMissOnLoad
  else if p = 3 then .TlbMissOnStore
  else if p = 4 then .AddressErrorOnLoad
  else if p = 5 then .AddressErrorOnStore
  else if p = 6 then .InstructionBusError
  else if p = 7 then .DataBusError
  else if p = 8 then .Syscall
  else if p = 9 then .Breakpoint
  else if p = 10 then .ReservedInstruction
  else if p = 11 then .CoprocessorUnusable
  else if p = 12 then .ArithmeticOverflow
  else if p = 13 then .Trap
  else if p = 15 then .FloatingPoint
  else if p = 23 then .Watch
  else if p = 24 then .Reserved
  else .Reserved

/-- `cp1::RoundingMode` (field `rm: u8 [RoundingMode] @ 0..=1` of ControlStatus). -/
inductive RoundingMode
  | Rn
  | Rz
  | Rp
  | Rm
deriving DecidableEq, Repr

def RoundingMode.intoU8 : RoundingMode → Nat
  | .Rn => 0
  | .Rz => 1
  | .Rp => 2
  | .Rm => 3

def RoundingMode.fromU8 (p : Nat) : RoundingMode :=
  if p = 0 then .Rn
  else if p = 1 then .Rz
  else if p = 2 then .Rp
  else if p = 3 then .Rm
  else .Rn

/-- Modelled from the spec: the end-to-end scenario's enumerated field of
section 8, with mapped values `{0: Disabled, 3: Enabled}` and default
`Disabled`.  This enum appears in no source file; its decode follows the same
total `num_enum` decode shape as every enum of the source. -/
inductive ScenarioEnum
  | Disabled
  | Enabled
deriving DecidableEq, Repr

/-- Modelled from the spec: total decode of the section-8 scenario field —
match arms for the mapped values 0 and 3, default `Disabled` otherwise. -/
def ScenarioEnum.decode (p : Nat) : ScenarioEnum :=
  if p = 0 then .Disabled
  else if p = 3 then .Enabled
  else .Disabled

/-! ### Concrete register field accessors

Getter/`with_` pairs generated by `bitfield!` for the registers the claims
cite.  A `u32` register has width 32, a `u64` register width 64. -/

/-- `cp0::IndexReg.index` (`index: u8 @ 0..=5`). -/
def IndexReg.index (r : Nat) : Nat := getField 0 6 r

/-- `cp0::IndexReg.with_index` (`index: u8 @ 0..=5`). -/
def IndexReg.with_index (r v : Nat) : Nat := setField 32 0 6 r v

/-- `cp0::IndexReg.probe` (`probe: bool @ 31`). -/
def IndexReg.probe (r : Nat) : Bool := r.testBit 31

/-- `cp0::IndexReg.with_probe` (`probe: bool @ 31`). -/
def IndexReg.with_probe (r : Nat) (v : Bool) : Nat := setField 32 31 1 r v.toNat

/-- `vi::CtrlReg.depth` (`depth: u8 [ColorDepth] @ 0..=1`). -/
def CtrlReg.depth (r : Nat) : ColorDepth := ColorDepth.fromU8 (getField 0 2 r)

/-- `vi::CtrlReg.with_depth` (`depth: u8 [ColorDepth] @ 0..=1`). -/
def CtrlReg.with_depth (r : Nat) (v : ColorDepth) : Nat :=
  setField 32 0 2 r v.intoU8

/-- `vi::CtrlReg.aa_mode` (`aa_mode: u8 [AntiAliasMode] @ 8..=9`). -/
def CtrlReg.aa_mode (r : Nat) : AntiAliasMode :=
  AntiAliasMode.fromU8 (getField 8 2 r)

/-- `vi::CtrlReg.with_aa_mode` (`aa_mode: u8 [AntiAliasMode] @ 8..=9`). -/
def CtrlReg.with_aa_mode (r : Nat) (v : AntiAliasMode) : Nat :=
  setField 32 8 2 r v.intoU8

/-- `vi::CtrlReg.pixel_advance` (`pixel_advance: u8 @ 12..=15`). -/
def CtrlReg.pixel_advance (r : Nat) : Nat := getField 12 4 r

/-- `vi::CtrlReg.with_pixel_advance` (`pixel_advance: u8 @ 12..=15`). -/
def CtrlReg.with_pixel_advance (r v : Nat) : Nat := setField 32 12 4 r v

/-- `cp0::EntryLoReg.cache_algorithm` (`cache_algorithm: u8 [CacheAlgorithm] @ 3..=5`). -/
def EntryLoReg.cache_algorithm (r : Nat) : CacheAlgorithm :=
  CacheAlgorithm.fromU8 (getField 3 3 r)

/-- `cp0::EntryLoReg.with_cache_algorithm`. -/
def EntryLoReg.with_cache_algorithm (r : Nat) (v : CacheAlgorithm) : Nat :=
  setField 32 3 3 r v.intoU8

/-- `cp0::ConfigReg.k0` (`k0: u8 [CacheAlgorithm] @ 0..=2`). -/
def ConfigReg.k0 (r : Nat) : CacheAlgorithm :=
  CacheAlgorithm.fromU8 (getField 0 3 r)

/-- `cp0::ConfigReg.with_k0`. -/
def ConfigReg.with_k0 (r : Nat) (v : CacheAlgorithm) : Nat :=
  setField 32 0 3 r v.intoU8

/-- `cp0::PageMaskReg.mask` (`mask: u16 [PageSize] @ 13..=24`). -/
def PageMaskReg.mask_get (r : Nat) : PageSize :=
  PageSize.fromU16 (getField 13 12 r)

/-- `cp0::PageMaskReg.with_mask` (`mask: u16 [PageSize] @ 13..=24`). -/
def PageMaskReg.with_mask (r : Nat) (v : PageSize) : Nat :=
  setField 32 13 12 r v.intoU16

/-- `cp0::EntryHiReg.region` (`region: u8 [VAddrRegion] @ 62..=63`, u64 register). -/
def EntryHiReg.region (r : Nat) : VAddrRegion :=
  VAddrRegion.fromU8 (getField 62 2 r)

/-- `cp0::EntryHiReg.with_region`. -/
def EntryHiReg.with_region (r : Nat) (v : VAddrRegion) : Nat :=
  setField 64 62 2 r v.intoU8

/-- `cp0::XContextReg.region` (`region: u8 [VAddrRegion] @ 31..=32`, u64 register). -/
def XContextReg.region (r : Nat) : VAddrRegion :=
  VAddrRegion.fromU8 (getField 31 2 r)

/-- `cp0::XContextReg.with_region`. -/
def XContextReg.with_region (r : Nat) (v : VAddrRegion) : Nat :=
  setField 64 31 2 r v.intoU8

/-- `cp0::CauseReg.exception_code` (`exception_code: u8 [ExceptionCode, ro] @ 2..=6`;
read-only, the macro generates no setter). -/
def CauseReg.exception_code (r : Nat) : ExceptionCode :=
  ExceptionCode.fromU8 (getField 2 5 r)

/-- `cp1::ControlStatusReg.rm` (`rm: u8 [RoundingMode] @ 0..=1`). -/
def ControlStatusReg.rm (r : Nat) : RoundingMode :=
  RoundingMode.fromU8 (getField 0 2 r)

/-- `cp1::ControlStatusReg.with_rm`. -/
def ControlStatusReg.with_rm (r : Nat) (v : RoundingMode) : Nat :=
  setField 32 0 2 r v.intoU8

/-! ### The `RW` register cell with an event trace

The Rust cell wraps one memory location.  A cell's state is the raw value
stored at that location; each operation returns the new state together with
the list of volatile memory events it performed, in order. -/

/-- One volatile memory event on a cell: a load observing a value, or a store
of a value. -/
inductive MemEvent (T : Type)
  | load (v : T)
  | store (v : T)
deriving DecidableEq, Repr

def MemEvent.isLoad {T : Type} : MemEvent T → Bool
  | .load _ => true
  | .store _ => false

def MemEvent.isStore {T : Type} : MemEvent T → Bool
  | .load _ => false
  | .store _ => true

/-- `read_volatile`: returns the stored value; the state is unchanged and one
load event is emitted. -/
def readVolatile {T : Type} (s : T) : T × T × List (MemEvent T) :=
  (s, s, [.load s])

/-- `write_volatile`: the stored value becomes the written value and one store
event is emitted. -/
def writeVolatile {T : Type} (v _s : T) : T × List (MemEvent T) :=
  (v, [.store v])

/-- `RW::read`: `(&self.0 as *const T).read_volatile()`. -/
def RW.read {T : Type} (s : T) : T × T × List (MemEvent T) := readVolatile s

/-- `RW::write`: `ptr.write_volatile(data)`. -/
def RW.write {T : Type} (v s : T) : T × List (MemEvent T) := writeVolatile v s

/-- `RW::modify`: `ptr.write_volatile(func(ptr.read_volatile()))` — one
volatile load, then one volatile store of the function's result. -/
def RW.modify {T : Type} (f : T → T) (s : T) : T × List (MemEvent T) :=
  match readVolatile s with
  | (x, s1, t1) =>
    match writeVolatile (f x) s1 with
    | (s2, t2) => (s2, t1 ++ t2)

/-- The composition `write(f(read()))` through the public `RW` methods. -/
def RW.readThenWrite {T : Type} (f : T → T) (s : T) : T × List (MemEvent T) :=
  match RW.read s with
  | (x, s1, t1) =>
    match RW.write (f x) s1 with
    | (s2, t2) => (s2, t1 ++ t2)

/-! ### The `Hardware` ownership arbiter

`HARDWARE_TAKEN` is a process-wide boolean.  `take`/`steal` are modelled as
explicit state-passing functions over that boolean. -/

/-- `cp0::Cp0` — zero-sized accessor struct. -/
structure Cp0 where
deriving DecidableEq, Repr

def Cp0.new : Cp0 := {}

/-- `cp1::Cp1` — zero-sized accessor struct. -/
structure Cp1 where
deriving DecidableEq, Repr

def Cp1.new : Cp1 := {}

/-- `mi::MipsInterface` — wrapped pointer to the MI register block. -/
structure MipsInterface where
  r : Nat
deriving DecidableEq, Repr

def MipsInterface.new : MipsInterface := ⟨0xA4300000⟩

/-- `vi::VideoInterface` — wrapped pointer to the VI register block. -/
structure VideoInterface where
  r : Nat
deriving DecidableEq, Repr

def VideoInterface.new : VideoInterface := ⟨0xA4400000⟩

/-- `ai::AudioInterface` — wrapped pointer to the AI register block. -/
structure AudioInterface where
  r : Nat
deriving DecidableEq, Repr

def AudioInterface.new : AudioInterface := ⟨0xA4500000⟩

/-- `pi::PeripheralInterface` — wrapped pointer to the PI register block. -/
structure PeripheralInterface where
  r : Nat
deriving DecidableEq, Repr

def PeripheralInterface.new : PeripheralInterface := ⟨0xA4600000⟩

/-- `si::SerialInterface` — wrapped pointer to the SI register block. -/
structure SerialInterface where
  r : Nat
deriving DecidableEq, Repr

def SerialInterface.new : SerialInterface := ⟨0xA4800000⟩

/-- `Hardware` — the top-level handle holding every hardware abstraction. -/
structure Hardware where
  cp0 : Cp0
  cp1 : Cp1
  mi : MipsInterface
  vi : VideoInterface
  ai : AudioInterface
  pi : PeripheralInterface
  si : SerialInterface
deriving DecidableEq, Repr

/-- Initial value of the `HARDWARE_TAKEN` static: `false` at program start. -/
def HARDWARE_TAKEN_init : Bool := false

/-- `Hardware::steal`: sets `HARDWARE_TAKEN = true` and unconditionally
returns a full handle. -/
def Hardware.steal (_s : Bool) : Hardware × Bool :=
  ({ cp0 := Cp0.new, cp1 := Cp1.new, mi := MipsInterface.new,
     vi := VideoInterface.new, ai := AudioInterface.new,
     pi := PeripheralInterface.new, si := SerialInterface.new }, true)

/-- `Hardware::take`: returns `None` when `HARDWARE_TAKEN` is already set,
otherwise `Some(steal())`. -/
def Hardware.take (s : Bool) : Option Hardware × Bool :=
  if s then (none, s)
  else
    match Hardware.steal s with
    | (h, s1) => (some h, s1)

/-- One arbiter call in a sequential trace. -/
inductive ArbOp
  | takeOp
  | stealOp
deriving DecidableEq, Repr

/-- Effect of one arbiter call on the `HARDWARE_TAKEN` flag. -/
def arbStep (s : Bool) : ArbOp → Bool
  | .takeOp => (Hardware.take s).2
  | .stealOp => (Hardware.steal s).2

/-- Flag after a sequence of arbiter calls. -/
def arbRun (s : Bool) : List ArbOp → Bool
  | [] => s
  | op :: ops => arbRun (arbStep s op) ops

/-! ### The MI MODE dual-view register -/

/-- `mi::ModeRegRead` — the read shape of MI MODE, decoded field by field from
the raw stored bits (`init_length @ 0..=6`, `init_mode @ 7`,
`ebus_test_mode @ 8`, `rdram_register_mode @ 9`). -/
structure ModeRegRead where
  init_length : Nat
  init_mode : Bool
  ebus_test_mode : Bool
  rdram_register_mode : Bool
deriving DecidableEq, Repr

/-- Decode of the read shape from raw bits. -/
def ModeRegRead.ofRaw (raw : Nat) : ModeRegRead :=
  { init_length := getField 0 7 raw
    init_mode := raw.testBit 7
    ebus_test_mode := raw.testBit 8
    rdram_register_mode := raw.testBit 9 }

/-- `mi::ModeRegWrite` builder `with_set_init_mode(true)` (`set_init_mode: bool [wo] @ 8`). -/
def ModeRegWrite.set_init_mode (raw : Nat) : Nat := setField 32 8 1 raw 1

/-- `mi::ModeRegWrite` builder `with_clear_dp_interrupt(true)` (`clear_dp_interrupt: bool [wo] @ 11`). -/
def ModeRegWrite.clear_dp_interrupt (raw : Nat) : Nat := setField 32 11 1 raw 1

/-- `mi::set_mode` through `RW<ModeReg>::write`: the stored raw value becomes
exactly the raw bits of the given write-shape, whatever was stored before. -/
def ModeReg.write (d _s : Nat) : Nat := d

/-- `mi::mode` through `RW<ModeReg>::read` and the union's `read` view: the
read shape decoded from the raw bits currently stored. -/
def ModeReg.read (s : Nat) : ModeRegRead := ModeRegRead.ofRaw s

/-! ### The CP0 64-bit privileged transport -/

/-- `cp0::read_u64`: `dmfc0` produces the 64-bit value; the `add` keeps the
low 32-bit word (`value_lo`), `dsrl32` the high word (`value_hi`); the Rust
code then returns `((value_hi as u64) << 32) | (value_lo as u64)`. -/
def cp0.read_u64 (v : Nat) : Nat :=
  match (v % 2 ^ 32, v / 2 ^ 32 % 2 ^ 32) with
  | (value_lo, value_hi) => (value_hi <<< 32) ||| value_lo

/-- `cp0::write_u64`: the operands are `lo = value as u32` and
`hi = (value >> 32) as u32`; `dsll32` shifts `hi` into the upper word,
`dsll32` then `dsrl32` zero-extends `lo`, and `or` combines them into the
doubleword moved to the register. -/
def cp0.write_u64 (v : Nat) : Nat :=
  match (v % 2 ^ 32, v / 2 ^ 32 % 2 ^ 32) with
  | (lo, hi) =>
    match ((hi <<< 32) % 2 ^ 64, ((lo <<< 32) % 2 ^ 64) >>> 32) with
    | (tmp, tmp2) => tmp ||| tmp2

/-! ### Byte-addressed store of memory-mapped cells

For the frame claim the machine state is a map from a cell's address to its
stored raw value. -/

/-- Machine state: stored raw value at each cell address. -/
def Store : Type := Nat → Nat

/-- `RW::write` on the cell at address `addr`: only that address changes. -/
def Store.write (addr v : Nat) (s : Store) : Store :=
  fun a => if a = addr then v else s a

/-- `RW::read` on the cell at address `addr`. -/
def Store.read (addr : Nat) (s : Store) : Nat := s addr

/-- `RW::modify` on the cell at address `addr`. -/
def Store.modify (addr : Nat) (f : Nat → Nat) (s : Store) : Store :=
  Store.write addr (f (Store.read addr s)) s

/-- Byte offsets of the 16 `RW<u32>` cells of the VI `RegisterBlock`
(`#[repr(C)]`, base `0xA4400000`): cell `n` lives at base + 4n. -/
def vi_cell_addr (n : Nat) : Nat := 0xA4400000 + 4 * n

/-- Byte offsets of the 4 cells of the MI `RegisterBlock`
(`#[repr(C)]`, base `0xA4300000`): cell `n` lives at base + 4n. -/
def mi_cell_addr (n : Nat) : Nat := 0xA4300000 + 4 * n

/-! ## Claim theorems -/

/-- Claim C2: for every RW cell state `s` and function `f`, `RW::modify f`
performs exactly one load followed by exactly one store, leaves the cell
holding `f s`, is observationally equal to `write (f (read ()))`, and with
the identity function leaves the stored raw value unchanged. -/
theorem claim2_modify_one_load_one_store (T : Type) (s : T) (f : T → T) :
    RW.modify f s = (f s, [MemEvent.load s, MemEvent.store (f s)]) ∧
    (RW.modify f s).2.countP MemEvent.isLoad = 1 ∧
    (RW.modify f s).2.countP MemEvent.isStore = 1 ∧
    RW.modify f s = RW.readThenWrite f s ∧
    (RW.modify id s).1 = s := by
  refine ⟨rfl, ?_, ?_, rfl, rfl⟩ <;>
    simp [RW.modify, readVolatile, writeVolatile, MemEvent.isLoad,
      MemEvent.isStore]

/-- Claim C3: from the `Unclaimed` state the first `take` returns a handle and
the second returns `None`; `take` returns `None` exactly when the claimed flag
is already set; `steal` returns a handle (and sets the flag) in every state. -/
theorem claim3_take_twice_steal_always (s : Bool) :
    ((Hardware.take HARDWARE_TAKEN_init).1).isSome = true ∧
    (Hardware.take (Hardware.take HARDWARE_TAKEN_init).2).1 = none ∧
    ((Hardware.take s).1 = none ↔ s = true) ∧
    (Hardware.steal s).1 = (Hardware.steal HARDWARE_TAKEN_init).1 ∧
    (Hardware.steal s).2 = true := by
  cases s <;> simp [Hardware.take, Hardware.steal, HARDWARE_TAKEN_init]

/-- Claim C4: the `HARDWARE_TAKEN` flag is false at program start, a
successful `take` (and any `steal`) leaves it true, and from a claimed state
no sequence of `take`/`steal` calls ever resets it to false. -/
theorem claim4_flag_never_reset (s s1 : Bool) (ops : List ArbOp)
    (h : s1 = true) :
    HARDWARE_TAKEN_init = false ∧
    ((Hardware.take s).1.isSome = true → (Hardware.take s).2 = true) ∧
    (Hardware.steal s).2 = true ∧
    arbRun s1 ops = true := by
  subst h
  refine ⟨rfl, ?_, rfl, ?_⟩
  · cases s <;> simp [Hardware.take, Hardware.steal]
  · induction ops with
    | nil => rfl
    | cons op ops ih =>
      cases op <;>
        simpa [arbRun, arbStep, Hardware.take, Hardware.steal] using ih

/-- Witness for C4 at the claimed state and a concrete call sequence. -/
theorem claim4_flag_never_reset_witness :
    HARDWARE_TAKEN_init = false ∧
    ((Hardware.take false).1.isSome = true → (Hardware.take false).2 = true) ∧
    (Hardware.steal false).2 = true ∧
    arbRun true [ArbOp.takeOp, ArbOp.stealOp, ArbOp.takeOp] = true :=
  claim4_flag_never_reset false true [ArbOp.takeOp, ArbOp.stealOp, ArbOp.takeOp] rfl

theorem colorDepth_decode_encode (v : ColorDepth) :
    ColorDepth.fromU8 v.intoU8 = v := by
  cases v <;> rfl

theorem colorDepth_decode_unmapped (p : Nat) (hp : p < 2 ^ 2)
    (h : ∀ v : ColorDepth, v.intoU8 ≠ p) :
    ColorDepth.fromU8 p = ColorDepth.Blank := by
  exfalso
  have h3 : (3 : Nat) ≠ p := h .BPP32
  have h2 : (2 : Nat) ≠ p := h .BPP16
  have h1 : (1 : Nat) ≠ p := h .Reserved
  have h0 : (0 : Nat) ≠ p := h .Blank
  omega

theorem antiAliasMode_decode_encode (v : AntiAliasMode) :
    AntiAliasMode.fromU8 v.intoU8 = v := by
  cases v <;> rfl

theorem antiAliasMode_decode_unmapped (p : Nat) (hp : p < 2 ^ 2)
    (h : ∀ v : AntiAliasMode, v.intoU8 ≠ p) :
    AntiAliasMode.fromU8 p = AntiAliasMode.Enabled := by
  exfalso
  have h3 : (3 : Nat) ≠ p := h .Disabled
  have h2 : (2 : Nat) ≠ p := h .ResamplingOnly
  have h1 : (1 : Nat) ≠ p := h .EnabledAsNeeded
  have h0 : (0 : Nat) ≠ p := h .Enabled
  omega

theorem cacheAlgorithm_decode_encode (v : CacheAlgorithm) :
    CacheAlgorithm.fromU8 v.intoU8 = v := by
  cases v <;> rfl

theorem cacheAlgorithm_decode_unmapped (p : Nat)
    (h : ∀ v : CacheAlgorithm, v.intoU8 ≠ p) :
    CacheAlgorithm.fromU8 p = CacheAlgorithm.Cached := by
  have h2 : p ≠ 2 := fun e => h .Uncached e.symm
  simp [CacheAlgorithm.fromU8, h2]

theorem pageSize_decode_encode (v : PageSize) :
    PageSize.fromU16 v.intoU16 = v := by
  cases v <;> rfl

theorem pageSize_decode_unmapped (p : Nat)
    (h : ∀ v : PageSize, v.intoU16 ≠ p) :
    PageSize.fromU16 p = PageSize.Undefined := by
  have h0 : p ≠ 0x000 := fun e => h .KB4 e.symm
  have h3 : p ≠ 0x003 := fun e => h .KB16 e.symm
  have h15 : p ≠ 0x00F := fun e => h .KB64 e.symm
  have h63 : p ≠ 0x03F := fun e => h .KB256 e.symm
  have h255 : p ≠ 0x0FF := fun e => h .MB1 e.symm
  have h1023 : p ≠ 0x3FF := fun e => h .MB4 e.symm
  have h4095 : p ≠ 0xFFF := fun e => h .MB16 e.symm
  simp [PageSize.fromU16, h0, h3, h15, h63, h255, h1023, h4095]

theorem exceptionCode_decode_encode (v : ExceptionCode) :
    ExceptionCode.fromU8 v.intoU8 = v := by
  cases v <;> rfl

theorem exceptionCode_decode_unmapped (p : Nat)
    (h : ∀ v : ExceptionCode, v.intoU8 ≠ p) :
    ExceptionCode.fromU8 p = ExceptionCode.Reserved := by
  have e0 : p ≠ 0 := fun e => h .Interrupt e.symm
  have e1 : p ≠ 1 := fun e => h .TlbModification e.symm
  have e2 : p ≠ 2 := fun e => h .TlbMissOnLoad e.symm
  have e3 : p ≠ 3 := fun e => h .TlbMissOnStore e.symm
  have e4 : p ≠ 4 := fun e => h .AddressErrorOnLoad e.symm
  have e5 : p ≠ 5 := fun e => h .AddressErrorOnStore e.symm
  have e6 : p ≠ 6 := fun e => h .InstructionBusError e.symm
  have e7 : p ≠ 7 := fun e => h .DataBusError e.symm
  have e8 : p ≠ 8 := fun e => h .Syscall e.symm
  have e9 : p ≠ 9 := fun e => h .Breakpoint e.symm
  have e10 : p ≠ 10 := fun e => h .ReservedInstruction e.symm
  have e11 : p ≠ 11 := fun e => h .CoprocessorUnusable e.symm
  have e12 : p ≠ 12 := fun e => h .ArithmeticOverflow e.symm
  have e13 : p ≠ 13 := fun e => h .Trap e.symm
  have e15 : p ≠ 15 := fun e => h .FloatingPoint e.symm
  have e23 : p ≠ 23 := fun e => h .Watch e.symm
  simp [ExceptionCode.fromU8, e0, e1, e2, e3, e4, e5, e6, e7, e8, e9, e10,
    e11, e12, e13, e15, e23]

theorem vaddrRegion_decode_encode (v : VAddrRegion) :
    VAddrRegion.fromU8 v.intoU8 = v := by
  cases v <;> rfl

theorem vaddrRegion_decode_unmapped (p : Nat) (hp : p < 2 ^ 2)
    (h : ∀ v : VAddrRegion, v.intoU8 ≠ p) :
    VAddrRegion.fromU8 p = VAddrRegion.Unknown := by
  exfalso
  have h0 : (0 : Nat) ≠ p := h .User
  have h1 : (1 : Nat) ≠ p := h .Supervisor
  have h2 : (2 : Nat) ≠ p := h .Unknown
  have h3 : (3 : Nat) ≠ p := h .Kernel
  omega

theorem roundingMode_decode_encode (v : RoundingMode) :
    RoundingMode.fromU8 v.intoU8 = v := by
  cases v <;> rfl

theorem roundingMode_decode_unmapped (p : Nat) (hp : p < 2 ^ 2)
    (h : ∀ v : RoundingMode, v.intoU8 ≠ p) :
    RoundingMode.fromU8 p = RoundingMode.Rn := by
  exfalso
  have h0 : (0 : Nat) ≠ p := h .Rn
  have h1 : (1 : Nat) ≠ p := h .Rz
  have h2 : (2 : Nat) ≠ p := h .Rp
  have h3 : (3 : Nat) ≠ p := h .Rm
  omega

/-- Claim C1: for every enumerated field of the crate and every raw bit
pattern of the field's width, decode is total: a pattern equal to a declared
variant's encoding decodes to that variant, and every unmapped pattern decodes
to the enum's `#[default]` variant.  The final conjunct is the spec's
section-8 scenario: with mapping `{0: Disabled, 3: Enabled}` and default
`Disabled`, the unmapped pattern 2 decodes to `Disabled`. -/
theorem claim1_enum_decode_total
    (pcd paa pca pps pec pvr prm : Nat)
    (hcd : pcd < 2 ^ 2) (haa : paa < 2 ^ 2) (hca : pca < 2 ^ 3)
    (hps : pps < 2 ^ 12) (hec : pec < 2 ^ 5) (hvr : pvr < 2 ^ 2)
    (hrm : prm < 2 ^ 2) :
    ((∀ v : ColorDepth, v.intoU8 = pcd → ColorDepth.fromU8 pcd = v) ∧
      ((∀ v : ColorDepth, v.intoU8 ≠ pcd) →
        ColorDepth.fromU8 pcd = ColorDepth.Blank)) ∧
    ((∀ v : AntiAliasMode, v.intoU8 = paa → AntiAliasMode.fromU8 paa = v) ∧
      ((∀ v : AntiAliasMode, v.intoU8 ≠ paa) →
        AntiAliasMode.fromU8 paa = AntiAliasMode.Enabled)) ∧
    ((∀ v : CacheAlgorithm, v.intoU8 = pca → CacheAlgorithm.fromU8 pca = v) ∧
      ((∀ v : CacheAlgorithm, v.intoU8 ≠ pca) →
        CacheAlgorithm.fromU8 pca = CacheAlgorithm.Cached)) ∧
    ((∀ v : PageSize, v.intoU16 = pps → PageSize.fromU16 pps = v) ∧
      ((∀ v : PageSize, v.intoU16 ≠ pps) →
        PageSize.fromU16 pps = PageSize.Undefined)) ∧
    ((∀ v : ExceptionCode, v.intoU8 = pec → ExceptionCode.fromU8 pec = v) ∧
      ((∀ v : ExceptionCode, v.intoU8 ≠ pec) →
        ExceptionCode.fromU8 pec = ExceptionCode.Reserved)) ∧
    ((∀ v : VAddrRegion, v.intoU8 = pvr → VAddrRegion.fromU8 pvr = v) ∧
      ((∀ v : VAddrRegion, v.intoU8 ≠ pvr) →
        VAddrRegion.fromU8 pvr = VAddrRegion.Unknown)) ∧
    ((∀ v : RoundingMode, v.intoU8 = prm → RoundingMode.fromU8 prm = v) ∧
      ((∀ v : RoundingMode, v.intoU8 ≠ prm) →
        RoundingMode.fromU8 prm = RoundingMode.Rn)) ∧
    ScenarioEnum.decode 2 = ScenarioEnum.Disabled := by
  refine ⟨⟨?_, ?_⟩, ⟨?_, ?_⟩, ⟨?_, ?_⟩, ⟨?_, ?_⟩, ⟨?_, ?_⟩, ⟨?_, ?_⟩,
    ⟨?_, ?_⟩, rfl⟩
  · intro v hv; exact hv ▸ colorDepth_decode_encode v
  · exact colorDepth_decode_unmapped pcd hcd
  · intro v hv; exact hv ▸ antiAliasMode_decode_encode v
  · exact antiAliasMode_decode_unmapped paa haa
  · intro v hv; exact hv ▸ cacheAlgorithm_decode_encode v
  · exact cacheAlgorithm_decode_unmapped pca
  · intro v hv; exact hv ▸ pageSize_decode_encode v
  · exact pageSize_decode_unmapped pps
  · intro v hv; exact hv ▸ exceptionCode_decode_encode v
  · exact exceptionCode_decode_unmapped pec
  · intro v hv; exact hv ▸ vaddrRegion_decode_encode v
  · exact vaddrRegion_decode_unmapped pvr hvr
  · intro v hv; exact hv ▸ roundingMode_decode_encode v
  · exact roundingMode_decode_unmapped prm hrm

/-- Witness for C1 at concrete field patterns: 2 (mapped) for ColorDepth,
1 for AntiAliasMode, the unmapped pattern 5 for CacheAlgorithm, the unmapped
pattern 2 for PageSize, the unmapped pattern 14 for ExceptionCode, 2 for
VAddrRegion and 1 for RoundingMode. -/
theorem claim1_enum_decode_total_witness :
    ((∀ v : ColorDepth, v.intoU8 = 2 → ColorDepth.fromU8 2 = v) ∧
      ((∀ v : ColorDepth, v.intoU8 ≠ 2) →
        ColorDepth.fromU8 2 = ColorDepth.Blank)) ∧
    ((∀ v : AntiAliasMode, v.intoU8 = 1 → AntiAliasMode.fromU8 1 = v) ∧
      ((∀ v : AntiAliasMode, v.intoU8 ≠ 1) →
        AntiAliasMode.fromU8 1 = AntiAliasMode.Enabled)) ∧
    ((∀ v : CacheAlgorithm, v.intoU8 = 5 → CacheAlgorithm.fromU8 5 = v) ∧
      ((∀ v : CacheAlgorithm, v.intoU8 ≠ 5) →
        CacheAlgorithm.fromU8 5 = CacheAlgorithm.Cached)) ∧
    ((∀ v : PageSize, v.intoU16 = 2 → PageSize.fromU16 2 = v) ∧
      ((∀ v : PageSize, v.intoU16 ≠ 2) →
        PageSize.fromU16 2 = PageSize.Undefined)) ∧
    ((∀ v : ExceptionCode, v.intoU8 = 14 → ExceptionCode.fromU8 14 = v) ∧
      ((∀ v : ExceptionCode, v.intoU8 ≠ 14) →
        ExceptionCode.fromU8 14 = ExceptionCode.Reserved)) ∧
    ((∀ v : VAddrRegion, v.intoU8 = 2 → VAddrRegion.fromU8 2 = v) ∧
      ((∀ v : VAddrRegion, v.intoU8 ≠ 2) →
        VAddrRegion.fromU8 2 = VAddrRegion.Unknown)) ∧
    ((∀ v : RoundingMode, v.intoU8 = 1 → RoundingMode.fromU8 1 = v) ∧
      ((∀ v : RoundingMode, v.intoU8 ≠ 1) →
        RoundingMode.fromU8 1 = RoundingMode.Rn)) ∧
    ScenarioEnum.decode 2 = ScenarioEnum.Disabled :=
  claim1_enum_decode_total 2 1 5 2 14 2 1 (by decide) (by decide) (by decide)
    (by decide) (by decide) (by decide) (by decide)

/-- Claim C5: for a field at offset `o`, width `w` of a register of `width`
bits, the generated setter leaves bits `[o, o+w)` of the result equal to the
input value truncated to `w` bits (excess high bits silently discarded) and
every other bit equal to the corresponding bit of the previous register
value.  `IndexReg.with_index` and the `CtrlReg` setters are instances of
`setField`. -/
theorem claim5_setter_truncates_and_preserves (width o w i r v : Nat)
    (hw : o + w ≤ width) (hr : r < 2 ^ width) :
    (o ≤ i → i < o + w →
      (setField width o w r v).testBit i = (v &&& mask w).testBit (i - o)) ∧
    ((i < o ∨ o + w ≤ i) →
      (setField width o w r v).testBit i = r.testBit i) ∧
    CtrlReg.with_pixel_advance r v = setField 32 12 4 r v ∧
    IndexReg.with_index r v = setField 32 0 6 r v := by
  refine ⟨?_, ?_, rfl, rfl⟩
  · intro h1 h2
    rw [setField_testBit_in width o w r v i hw h1 h2]
    have hio : i - o < w := by omega
    simp [mask, Nat.testBit_land, Nat.testBit_two_pow_sub_one, hio]
  · intro hout
    rcases Nat.lt_or_ge i width with hiw | hiw
    · exact setField_testBit_out width o w r v i hiw hout
    · rw [setField_testBit_high width o w r v i hw hr hiw]
      exact (Nat.testBit_lt_two_pow
        (lt_of_lt_of_le hr (Nat.pow_le_pow_right (by omega) hiw))).symm

/-- Witness for C5: the `pixel_advance` field (offset 12, width 4) of a
32-bit VI CTRL value, checked at bit 13, with an oversized input. -/
theorem claim5_setter_truncates_and_preserves_witness :
    (12 ≤ 13 → 13 < 12 + 4 →
      (setField 32 12 4 5 0x1F).testBit 13 = ((0x1F &&& mask 4).testBit (13 - 12))) ∧
    ((13 < 12 ∨ 12 + 4 ≤ 13) →
      (setField 32 12 4 5 0x1F).testBit 13 = (5 : Nat).testBit 13) ∧
    CtrlReg.with_pixel_advance 5 0x1F = setField 32 12 4 5 0x1F ∧
    IndexReg.with_index 5 0x1F = setField 32 0 6 5 0x1F :=
  claim5_setter_truncates_and_preserves 32 12 4 13 5 0x1F (by decide) (by decide)

/-- Claim C6: decoding a field and re-encoding the decoded value into an
all-zero register value reproduces exactly the bits of `r` in `[o, o+w)` and
leaves every bit outside that range zero. -/
theorem claim6_roundtrip_isolation (width o w i r : Nat) (h : o + w ≤ width) :
    (o ≤ i → i < o + w →
      (setField width o w 0 (getField o w r)).testBit i = r.testBit i) ∧
    (¬ (o ≤ i ∧ i < o + w) →
      (setField width o w 0 (getField o w r)).testBit i = false) := by
  constructor
  · intro h1 h2
    rw [setField_testBit_in width o w 0 (getField o w r) i h h1 h2,
      getField_testBit, show o + (i - o) = i by omega]
    simp [show i - o < w by omega]
  · intro hout
    rcases Nat.lt_or_ge i width with hiw | hiw
    · rw [setField_testBit_out width o w 0 (getField o w r) i hiw (by omega)]
      exact Nat.zero_testBit i
    · exact setField_testBit_high width o w 0 (getField o w r) i h
        (Nat.two_pow_pos width) hiw

/-- Witness for C6: the `mask` field (offset 13, width 12) of PageMask at a
concrete raw value, checked at bit 14. -/
theorem claim6_roundtrip_isolation_witness :
    (13 ≤ 14 → 14 < 13 + 12 →
      (setField 32 13 12 0 (getField 13 12 0xABCDE)).testBit 14 =
        (0xABCDE : Nat).testBit 14) ∧
    (¬ (13 ≤ 14 ∧ 14 < 13 + 12) →
      (setField 32 13 12 0 (getField 13 12 0xABCDE)).testBit 14 = false) :=
  claim6_roundtrip_isolation 32 13 12 14 0xABCDE (by decide)

/-- Counterexample to C7 as stated: `PageSize::Undefined` encodes as
`0x1000`, which exceeds the 12-bit `mask` field of PageMask; the setter
truncates it to `0x000`, so decoding the round-tripped value yields
`PageSize::KB4`, not `Undefined`. -/
theorem claim7_counterexample :
    PageMaskReg.mask_get (PageMaskReg.with_mask 0 PageSize.Undefined) =
      PageSize.KB4 ∧
    PageSize.KB4 ≠ PageSize.Undefined := by
  constructor
  · rw [show PageMaskReg.mask_get (PageMaskReg.with_mask 0 PageSize.Undefined) =
      PageSize.fromU16 (getField 13 12 (setField 32 13 12 0 0x1000)) from rfl,
      getField_setField 32 13 12 0 0x1000 (by omega)]
    decide
  · decide

/-- Claim C7 (amended): for every writable enumerated field, encoding a
defined variant into the field of any register value and decoding the result
returns the same variant — except `PageSize::Undefined`, whose encoding
`0x1000` does not fit the 12-bit PageMask `mask` field and round-trips to
`KB4` instead. -/
theorem claim7_enum_roundtrip_amended (r r64 : Nat) (v : PageSize)
    (hv : v ≠ PageSize.Undefined) :
    (∀ c : ColorDepth, CtrlReg.depth (CtrlReg.with_depth r c) = c) ∧
    (∀ c : AntiAliasMode, CtrlReg.aa_mode (CtrlReg.with_aa_mode r c) = c) ∧
    (∀ c : CacheAlgorithm,
      EntryLoReg.cache_algorithm (EntryLoReg.with_cache_algorithm r c) = c) ∧
    (∀ c : CacheAlgorithm, ConfigReg.k0 (ConfigReg.with_k0 r c) = c) ∧
    (∀ c : RoundingMode,
      ControlStatusReg.rm (ControlStatusReg.with_rm r c) = c) ∧
    (∀ c : VAddrRegion, EntryHiReg.region (EntryHiReg.with_region r64 c) = c) ∧
    (∀ c : VAddrRegion,
      XContextReg.region (XContextReg.with_region r64 c) = c) ∧
    PageMaskReg.mask_get (PageMaskReg.with_mask r v) = v ∧
    PageMaskReg.mask_get (PageMaskReg.with_mask r PageSize.Undefined) =
      PageSize.KB4 := by
  refine ⟨?_, ?_, ?_, ?_, ?_, ?_, ?_, ?_, ?_⟩
  · intro c
    show ColorDepth.fromU8 (getField 0 2 (setField 32 0 2 r c.intoU8)) = c
    rw [getField_setField 32 0 2 r _ (by omega)]
    cases c <;> decide
  · intro c
    show AntiAliasMode.fromU8 (getField 8 2 (setField 32 8 2 r c.intoU8)) = c
    rw [getField_setField 32 8 2 r _ (by omega)]
    cases c <;> decide
  · intro c
    show CacheAlgorithm.fromU8 (getField 3 3 (setField 32 3 3 r c.intoU8)) = c
    rw [getField_setField 32 3 3 r _ (by omega)]
    cases c <;> decide
  · intro c
    show CacheAlgorithm.fromU8 (getField 0 3 (setField 32 0 3 r c.intoU8)) = c
    rw [getField_setField 32 0 3 r _ (by omega)]
    cases c <;> decide
  · intro c
    show RoundingMode.fromU8 (getField 0 2 (setField 32 0 2 r c.intoU8)) = c
    rw [getField_setField 32 0 2 r _ (by omega)]
    cases c <;> decide
  · intro c
    show VAddrRegion.fromU8 (getField 62 2 (setField 64 62 2 r64 c.intoU8)) = c
    rw [getField_setField 64 62 2 r64 _ (by omega)]
    cases c <;> decide
  · intro c
    show VAddrRegion.fromU8 (getField 31 2 (setField 64 31 2 r64 c.intoU8)) = c
    rw [getField_setField 64 31 2 r64 _ (by omega)]
    cases c <;> decide
  · show PageSize.fromU16 (getField 13 12 (setField 32 13 12 r v.intoU16)) = v
    rw [getField_setField 32 13 12 r _ (by omega)]
    cases v
    case Undefined => exact absurd rfl hv
    all_goals decide
  · show PageSize.fromU16 (getField 13 12 (setField 32 13 12 r 0x1000)) =
      PageSize.KB4
    rw [getField_setField 32 13 12 r _ (by omega)]
    decide

/-- Witness for C7 (amended) at a concrete register value and a concrete
in-range variant. -/
theorem claim7_enum_roundtrip_amended_witness :
    (∀ c : ColorDepth, CtrlReg.depth (CtrlReg.with_depth 0xFFFF c) = c) ∧
    (∀ c : AntiAliasMode, CtrlReg.aa_mode (CtrlReg.with_aa_mode 0xFFFF c) = c) ∧
    (∀ c : CacheAlgorithm,
      EntryLoReg.cache_algorithm (EntryLoReg.with_cache_algorithm 0xFFFF c) = c) ∧
    (∀ c : CacheAlgorithm, ConfigReg.k0 (ConfigReg.with_k0 0xFFFF c) = c) ∧
    (∀ c : RoundingMode,
      ControlStatusReg.rm (ControlStatusReg.with_rm 0xFFFF c) = c) ∧
    (∀ c : VAddrRegion,
      EntryHiReg.region (EntryHiReg.with_region 0x123456789 c) = c) ∧
    (∀ c : VAddrRegion,
      XContextReg.region (XContextReg.with_region 0x123456789 c) = c) ∧
    PageMaskReg.mask_get (PageMaskReg.with_mask 0xFFFF PageSize.MB1) =
      PageSize.MB1 ∧
    PageMaskReg.mask_get (PageMaskReg.with_mask 0xFFFF PageSize.Undefined) =
      PageSize.KB4 :=
  claim7_enum_roundtrip_amended 0xFFFF 0x123456789 PageSize.MB1 (by decide)

/-- Claim C8: for the MI MODE dual-view register, `write` stores exactly the
raw bits of the given write-shape (independently of the previously stored
value) and `read` yields a read-shape computed solely from the stored raw
bits — two writes that store equal raw bits are read back identically. -/
theorem claim8_dual_view (d s d2 s2 : Nat)
    (h : ModeReg.write d s = ModeReg.write d2 s2) :
    ModeReg.write d s = d ∧
    ModeReg.read (ModeReg.write d s) = ModeRegRead.ofRaw d ∧
    ModeReg.read (ModeReg.write d s) = ModeReg.read (ModeReg.write d2 s2) :=
  ⟨rfl, rfl, congrArg ModeReg.read h⟩

/-- Witness for C8: two writes of the raw value 5 over different prior
states. -/
theorem claim8_dual_view_witness :
    ModeReg.write 5 7 = 5 ∧
    ModeReg.read (ModeReg.write 5 7) = ModeRegRead.ofRaw 5 ∧
    ModeReg.read (ModeReg.write 5 7) = ModeReg.read (ModeReg.write 5 9) :=
  claim8_dual_view 5 7 5 9 rfl

theorem hi_lo_lor (v : Nat) :
    ((v / 2 ^ 32) <<< 32) ||| (v % 2 ^ 32) = v := by
  apply Nat.eq_of_testBit_eq
  intro i
  rw [Nat.testBit_lor, Nat.testBit_shiftLeft, Nat.testBit_mod_two_pow]
  rcases Nat.lt_or_ge i 32 with hi | hi
  · simp [hi, Nat.not_le.mpr hi]
  · have hdiv : (v / 2 ^ 32).testBit (i - 32) = v.testBit i := by
      rw [← Nat.shiftRight_eq_div_pow, Nat.testBit_shiftRight,
        show 32 + (i - 32) = i by omega]
    have hrange : ¬ i < 32 := by omega
    simp [hi, hrange]
    exact hdiv

/-- Claim C9: the wide privileged-transport composition is the identity on
64-bit values — `read_u64` recombines the high and low words into exactly the
register's value, and `write_u64` moves exactly its argument into the
register. -/
theorem claim9_u64_transport_identity (v : Nat) (h : v < 2 ^ 64) :
    cp0.read_u64 v = v ∧ cp0.write_u64 v = v := by
  have hlo : v % 2 ^ 32 < 2 ^ 32 := Nat.mod_lt _ (Nat.two_pow_pos 32)
  have hhi : v / 2 ^ 32 < 2 ^ 32 := by
    apply Nat.div_lt_of_lt_mul
    calc v < 2 ^ 64 := h
    _ = 2 ^ 32 * 2 ^ 32 := by norm_num
  have e1 : v / 2 ^ 32 % 2 ^ 32 = v / 2 ^ 32 := Nat.mod_eq_of_lt hhi
  constructor
  · show ((v / 2 ^ 32 % 2 ^ 32) <<< 32) ||| (v % 2 ^ 32) = v
    rw [e1]
    exact hi_lo_lor v
  · show (((v / 2 ^ 32 % 2 ^ 32) <<< 32) % 2 ^ 64) |||
      ((((v % 2 ^ 32) <<< 32) % 2 ^ 64) >>> 32) = v
    have e2 : ((v / 2 ^ 32) <<< 32) % 2 ^ 64 = (v / 2 ^ 32) <<< 32 := by
      apply Nat.mod_eq_of_lt
      rw [Nat.shiftLeft_eq]
      calc v / 2 ^ 32 * 2 ^ 32 < 2 ^ 32 * 2 ^ 32 :=
        (Nat.mul_lt_mul_right (Nat.two_pow_pos 32)).mpr hhi
      _ = 2 ^ 64 := by norm_num
    have e3 : ((v % 2 ^ 32) <<< 32) % 2 ^ 64 = (v % 2 ^ 32) <<< 32 := by
      apply Nat.mod_eq_of_lt
      rw [Nat.shiftLeft_eq]
      calc v % 2 ^ 32 * 2 ^ 32 < 2 ^ 32 * 2 ^ 32 :=
        (Nat.mul_lt_mul_right (Nat.two_pow_pos 32)).mpr hlo
      _ = 2 ^ 64 := by norm_num
    have e4 : ((v % 2 ^ 32) <<< 32) >>> 32 = v % 2 ^ 32 := by
      rw [Nat.shiftLeft_eq, Nat.shiftRight_eq_div_pow]
      exact Nat.mul_div_cancel _ (Nat.two_pow_pos 32)
    rw [e1, e2, e3, e4]
    exact hi_lo_lor v

/-- Witness for C9 at a concrete 64-bit value. -/
theorem claim9_u64_transport_identity_witness :
    cp0.read_u64 0x123456789ABCDEF0 = 0x123456789ABCDEF0 ∧
    cp0.write_u64 0x123456789ABCDEF0 = 0x123456789ABCDEF0 :=
  claim9_u64_transport_identity 0x123456789ABCDEF0 (by norm_num)

/-- Claim C10: `RW::write` (and `RW::modify`) on one cell changes only the
stored raw value at that cell's address — every other address, whether in
the same register block or another block, is unchanged.  The last two
conjuncts instantiate this at the VI block's first two cells and across
blocks (VI CTRL versus MI MODE). -/
theorem claim10_cell_write_frame (s : Store) (c v a : Nat) (f : Nat → Nat)
    (h : a ≠ c) :
    Store.write c v s a = s a ∧
    Store.write c v s c = v ∧
    Store.modify c f s a = s a ∧
    Store.modify c f s c = f (s c) ∧
    Store.write (vi_cell_addr 0) v s (vi_cell_addr 1) = s (vi_cell_addr 1) ∧
    Store.write (vi_cell_addr 0) v s (mi_cell_addr 0) = s (mi_cell_addr 0) := by
  refine ⟨?_, ?_, ?_, ?_, ?_, ?_⟩ <;>
    simp [Store.write, Store.modify, Store.read, vi_cell_addr, mi_cell_addr, h]

/-- Witness for C10 at a concrete store, cell and distinct address. -/
theorem claim10_cell_write_frame_witness :
    Store.write 4 7 (fun _ => 0) 3 = (fun _ => (0 : Nat)) 3 ∧
    Store.write 4 7 (fun _ => 0) 4 = 7 ∧
    Store.modify 4 (fun x => x + 1) (fun _ => 0) 3 = (fun _ => (0 : Nat)) 3 ∧
    Store.modify 4 (fun x => x + 1) (fun _ => 0) 4 =
      (fun x => x + 1) ((fun _ => (0 : Nat)) 4) ∧
    Store.write (vi_cell_addr 0) 7 (fun _ => 0) (vi_cell_addr 1) =
      (fun _ => (0 : Nat)) (vi_cell_addr 1) ∧
    Store.write (vi_cell_addr 0) 7 (fun _ => 0) (mi_cell_addr 0) =
      (fun _ => (0 : Nat)) (mi_cell_addr 0) :=
  claim10_cell_write_frame (fun _ => 0) 4 7 3 (fun x => x + 1) (by decide)

end N64Pac
